import Mathlib

/-!
Verification of the resilient transfer client of the Pixeldrain-Rust
desktop application (src/pixeldrain_api.rs, src/main.rs).

The definitions below are a shallow embedding of the relevant Rust code.
Conventions used throughout:

* Progress fractions are `f32` in the source; they are modelled as exact
  rationals.  Every progress expression in the source is either an exact
  constant (0.0, 1.0, 0.95) or of the form `a as f32 / b as f32` with the
  operands far below 2^24 in every statement proved here, and the source
  only composes them with `min`, so the rational model agrees with the
  float computation on everything stated below.
* HTTP traffic, the filesystem and JSON parsing are external effects; they
  are supplied to each modelled operation as an explicit environment
  (oracle) argument: per-attempt request outcomes, per-read byte counts,
  and parse results.  Each modelled function consumes the oracle exactly
  where the source performs the corresponding effect.
* The callback invocations and thread sleeps an operation performs are
  returned as an explicit event trace, grouped into one block per loop
  attempt.
-/

namespace Pixeldrain

/-- Model of the boolean predicates of a reqwest transport error that
upload_file consults: is_timeout(), is_connect(), is_request(), and
whether the rendered message contains the body-transfer marker text. -/
structure ReqwestErrorM where
  is_timeout : Bool
  is_connect : Bool
  is_request : Bool
  is_body : Bool
  deriving DecidableEq, Repr

/-- Model of ApiError: the numeric HTTP status (http::StatusCode admits
100-999), the value tag and the message. -/
structure ApiErrorM where
  status : Nat
  value : String
  message : String
  deriving DecidableEq, Repr

/-- Model of the PixelDrainError enum.  serde_json::Error and io::Error
payloads are opaque to all the code verified here; Io keeps a message
string and Serde is a bare tag. -/
inductive PixelDrainErrorM where
  | Io (msg : String)
  | Reqwest (e : ReqwestErrorM)
  | Api (e : ApiErrorM)
  | Serde
  | InvalidUrl (msg : String)
  | FileNotFound (path : String)
  | MissingApiKey
  deriving DecidableEq, Repr

/-- StatusCode::is_server_error: status in 500..=599. -/
def is_server_error (s : Nat) : Bool := 500 ≤ s && s ≤ 599

/-- StatusCode::is_success: status in 200..=299. -/
def is_success_status (s : Nat) : Bool := 200 ≤ s && s ≤ 299

/-- The retryability classifier of upload_file / upload_file_put
(pixeldrain_api.rs lines 309-320): reqwest errors are retryable when
timeout, connect, request or body-transfer; Api errors when
status.is_server_error(); every other kind is terminal. -/
def should_retry : PixelDrainErrorM → Bool
  | .Reqwest e => e.is_timeout || e.is_connect || e.is_request || e.is_body
  | .Api e => is_server_error e.status
  | _ => false

/-- Classifier as the amended claim words it: the four network-level
reqwest failures and Api errors with status in 500-599 are retryable;
Api errors with any other status, Io, Serde, InvalidUrl, FileNotFound
and MissingApiKey are terminal. -/
def retryableAmendedSpec : PixelDrainErrorM → Bool
  | .Reqwest e => e.is_timeout || e.is_connect || e.is_request || e.is_body
  | .Api e => decide (500 ≤ e.status ∧ e.status < 600)
  | .Io _ => false
  | .Serde => false
  | .InvalidUrl _ => false
  | .FileNotFound _ => false
  | .MissingApiKey => false

/-- ProgressReader::read (pixeldrain_api.rs lines 1312-1331): the sequence
of values passed to the callback for a sequence of successful reads of
the given byte counts, starting from cumulative counter readSoFar.
Known-length mode (total = some t) reports min(read/total, 1) after every
read when t > 0 and reports nothing when t = 0; unknown-length mode
(total = none) reports min(read/1048576, 0.95) after every read. -/
def progressReaderEvents (total : Option Nat) : List Nat → Nat → List ℚ
  | [], _ => []
  | n :: rest, readSoFar =>
    match total with
    | some t =>
      if 0 < t then
        min (((readSoFar + n : Nat) : ℚ) / (t : ℚ)) 1 ::
          progressReaderEvents total rest (readSoFar + n)
      else progressReaderEvents total rest (readSoFar + n)
    | none =>
      min (((readSoFar + n : Nat) : ℚ) / 1048576) (19 / 20) ::
        progressReaderEvents total rest (readSoFar + n)

/-- Running cumulative byte counters of a read sequence, starting at c. -/
def cumSums (c : Nat) : List Nat → List Nat
  | [] => []
  | n :: rest => (c + n) :: cumSums (c + n) rest

/-- One observable event of a transfer operation: a value passed to the
progress callback, or a thread::sleep of the given number of seconds. -/
inductive Event where
  | progress (v : ℚ)
  | sleep (secs : Nat)
  deriving DecidableEq, Repr

/-- True when the event is not a sleep. -/
def Event.notSleep : Event → Bool
  | .sleep _ => false
  | _ => true

/-- upload_file retry budget (MAX_RETRIES, pixeldrain_api.rs line 268). -/
def MAX_RETRIES_UPLOAD : Nat := 3

/-- download_file retry budget (MAX_RETRIES, pixeldrain_api.rs line 353). -/
def MAX_RETRIES_DOWNLOAD : Nat := 5

/-- Fixed inter-attempt delay in seconds (RETRY_DELAY). -/
def RETRY_DELAY_SECS : Nat := 3

/-- UploadResponse DTO. -/
structure UploadResponseM where
  id : String
  deriving DecidableEq, Repr

/-- Environment of one upload_file attempt: whether File::open fails
(its io::Error propagates immediately through the question-mark operator),
the byte counts of the successful reads the transport pulled from the
ProgressReader while sending, and the outcome of do_multipart. -/
structure UploadAttempt where
  openErr : Option String
  reads : List Nat
  result : Except PixelDrainErrorM UploadResponseM

/-- Environment of upload_file: the precondition checks and the oracle
giving the outcome of every attempt (indexed from 1). -/
structure UploadEnv where
  fileExists : Bool
  hasApiKey : Bool
  fileSize : Nat
  attempts : Nat → UploadAttempt

/-- Fallback error after the upload retry loop (unreachable in the source
because the last failing attempt returns its own error). -/
def uploadFallbackError : PixelDrainErrorM :=
  .Api ⟨500, "error", "Upload failed after all retry attempts"⟩

/-- The retry loop of upload_file (pixeldrain_api.rs lines 271-333).
attempt is the 1-based loop counter, fuel the number of iterations left,
so the source guard attempt < MAX_RETRIES is fuel > 1, i.e. 0 < r in the
fuel = r+1 case.  Each attempt: reset the callback to 0, open the file
(an open failure aborts everything), stream the body through the
ProgressReader, then either return success (after reporting 1), retry
after a 3 s sleep when the error is retryable and attempts remain, or
return the error.  Returns the per-attempt event blocks and the result. -/
def uploadLoop (fileSize : Nat) (att : Nat → UploadAttempt) :
    Nat → Nat → List (List Event) × Except PixelDrainErrorM UploadResponseM
  | _, 0 => ([], .error uploadFallbackError)
  | attempt, r + 1 =>
    match (att attempt).openErr with
    | some m => ([[Event.progress 0]], .error (.Io m))
    | none =>
      match (att attempt).result with
      | .ok resp =>
        ([(Event.progress 0 ::
            (progressReaderEvents (some fileSize) (att attempt).reads 0).map Event.progress) ++
            [Event.progress 1]], .ok resp)
      | .error e =>
        if should_retry e && 0 < r then
          (((Event.progress 0 ::
              (progressReaderEvents (some fileSize) (att attempt).reads 0).map Event.progress) ++
              [Event.sleep RETRY_DELAY_SECS]) ::
            (uploadLoop fileSize att (attempt + 1) r).1,
           (uploadLoop fileSize att (attempt + 1) r).2)
        else
          ([Event.progress 0 ::
              (progressReaderEvents (some fileSize) (att attempt).reads 0).map Event.progress],
           .error e)

/-- upload_file (pixeldrain_api.rs lines 245-341): existence and api-key
checks, then the retry loop with budget 3. -/
def upload_file (env : UploadEnv) :
    List (List Event) × Except PixelDrainErrorM UploadResponseM :=
  if !env.fileExists then ([], .error (.FileNotFound ""))
  else if !env.hasApiKey then ([], .error .MissingApiKey)
  else uploadLoop env.fileSize env.attempts 1 MAX_RETRIES_UPLOAD

/-- One pull from the download response body: a successful read of n
bytes (n = 0 is end of stream), a read error from resp.read, or a read
whose subsequent file.write_all fails (the io::Error propagates through
the question-mark operator at once, before any progress report). -/
inductive ReadResult where
  | chunk (n : Nat)
  | readErr
  | writeErr
  deriving DecidableEq, Repr

/-- A download response: status, body text used for the error message on
non-success statuses, optional Content-Length, whether File::create of
the destination fails, and the body read outcomes. -/
structure DownloadResponse where
  status : Nat
  errText : String
  content_length : Option Nat
  createErr : Option String
  body : List ReadResult

/-- Outcome of one download attempt's req.send(). -/
inductive DownloadAttemptOutcome where
  | sendErr (e : ReqwestErrorM)
  | resp (r : DownloadResponse)

/-- How the body read loop of download_file was left. -/
inductive ReadExit where
  | eof
  | errBreak
  | errReturn
  deriving DecidableEq, Repr

/-- The body read loop of download_file (pixeldrain_api.rs lines 419-452):
reads 8192-byte-buffer chunks, writes them, advances the downloaded
counter and reports min(downloaded/content_length, 1) when a
Content-Length was present and 0.0 otherwise.  A read error sleeps 3 s
and BREAKS out of the loop when attempts remain (canRetry), else returns
the Io error; a write failure returns the Io error at once.  An exhausted
oracle reads as end of stream.  Returns the events, the final downloaded
count and how the loop exited. -/
def readLoop (cl : Nat) (canRetry : Bool) :
    List ReadResult → Nat → List Event × Nat × ReadExit
  | [], d => ([], d, .eof)
  | .chunk 0 :: _, d => ([], d, .eof)
  | .chunk (n + 1) :: rest, d =>
    (Event.progress
        (if 0 < cl then min (((d + (n + 1) : Nat) : ℚ) / (cl : ℚ)) 1 else 0) ::
        (readLoop cl canRetry rest (d + (n + 1))).1,
     (readLoop cl canRetry rest (d + (n + 1))).2)
  | .readErr :: _, d =>
    if canRetry then ([Event.sleep RETRY_DELAY_SECS], d, .errBreak)
    else ([], d, .errReturn)
  | .writeErr :: _, d => ([], d, .errReturn)

/-- Fallback error after the download retry loop (used when last_error
was never set, which cannot happen on the failing paths). -/
def downloadFallbackError : PixelDrainErrorM :=
  .Api ⟨500, "error", "Download failed after all retry attempts"⟩

/-- The retry loop of download_file (pixeldrain_api.rs lines 358-469).
Each attempt: reset the callback to 0; a send error is remembered in
last_error and retried after 3 s while attempts remain, else returned
after the loop via last_error; a non-success status is returned at once
unless it is a server error with attempts remaining; on a success status
the body is streamed through readLoop against Content-Length (0 when the
header is absent).  When the read loop exits by end of stream OR by the
retryable-read-error break, the epilogue reports 1.0 and returns Ok. -/
def downloadLoop (att : Nat → DownloadAttemptOutcome) :
    Nat → Nat → Option PixelDrainErrorM →
    List (List Event) × Except PixelDrainErrorM Unit
  | _, 0, lastErr => ([], .error (lastErr.getD downloadFallbackError))
  | attempt, r + 1, _lastErr =>
    match att attempt with
    | .sendErr e =>
      if 0 < r then
        ([Event.progress 0, Event.sleep RETRY_DELAY_SECS] ::
            (downloadLoop att (attempt + 1) r (some (.Reqwest e))).1,
         (downloadLoop att (attempt + 1) r (some (.Reqwest e))).2)
      else ([[Event.progress 0]], .error (.Reqwest e))
    | .resp resp =>
      if !is_success_status resp.status then
        if is_server_error resp.status && 0 < r then
          ([Event.progress 0, Event.sleep RETRY_DELAY_SECS] ::
              (downloadLoop att (attempt + 1) r
                (some (.Api ⟨resp.status, "error", resp.errText⟩))).1,
           (downloadLoop att (attempt + 1) r
              (some (.Api ⟨resp.status, "error", resp.errText⟩))).2)
        else ([[Event.progress 0]], .error (.Api ⟨resp.status, "error", resp.errText⟩))
      else
        match resp.createErr with
        | some m => ([[Event.progress 0]], .error (.Io m))
        | none =>
          match (readLoop (resp.content_length.getD 0) (0 < r) resp.body 0).2.2 with
          | .eof =>
            ([(Event.progress 0 ::
                (readLoop (resp.content_length.getD 0) (0 < r) resp.body 0).1) ++
                [Event.progress 1]], .ok ())
          | .errBreak =>
            ([(Event.progress 0 ::
                (readLoop (resp.content_length.getD 0) (0 < r) resp.body 0).1) ++
                [Event.progress 1]], .ok ())
          | .errReturn =>
            ([Event.progress 0 ::
                (readLoop (resp.content_length.getD 0) (0 < r) resp.body 0).1],
             .error (.Io "io error"))

/-- download_file (pixeldrain_api.rs lines 344-470): the retry loop with
budget 5, attempt counter starting at 1 and no last error yet. -/
def download_file (att : Nat → DownloadAttemptOutcome) :
    List (List Event) × Except PixelDrainErrorM Unit :=
  downloadLoop att 1 MAX_RETRIES_DOWNLOAD none

/-- Model of serde_json::from_str::<ApiErrorResponse>: the optional value
and message fields of a successfully parsed structured error body. -/
structure ApiErrorResponseM where
  value : Option String
  message : Option String
  deriving DecidableEq, Repr

/-- Model of an HTTP response as the transport layer sees it: the status,
the body text, and the two parse oracles (the result of parsing the body
text as a structured error object, and as the expected type α).  The
parse results are oracles because serde_json is external code; a
none means that parse fails. -/
structure ResponseM (α : Type) where
  status : Nat
  text : String
  parseApiError : Option ApiErrorResponseM
  parseT : Option α

/-- parse_json_response (pixeldrain_api.rs lines 111-150): status ≥ 400
yields an Api error built from the structured error body when it parses
(missing fields defaulting to "error" / "Unknown error"), else from the
raw body text; otherwise the body is deserialized as α, a failure
becoming a Serde error via the From impl on the question-mark operator. -/
def parse_json_response {α : Type} (resp : ResponseM α) :
    Except PixelDrainErrorM α :=
  if 400 ≤ resp.status then
    match resp.parseApiError with
    | some ae =>
      .error (.Api ⟨resp.status, ae.value.getD "error", ae.message.getD "Unknown error"⟩)
    | none => .error (.Api ⟨resp.status, "error", resp.text⟩)
  else
    match resp.parseT with
    | some t => .ok t
    | none => .error .Serde

/-- Model of a reqwest body-decode error (resp.json() failing): none of
the four predicates that upload_file's classifier tests are true. -/
def decodeError : ReqwestErrorM :=
  ⟨false, false, false, false⟩

/-- do_multipart (pixeldrain_api.rs lines 201-238) response handling: any
non-success status yields an Api error whose value tag is always "error"
and whose message is always the raw body text (no structured parse is
attempted); on success the body is decoded by reqwest's resp.json(),
whose failure is a reqwest error (not Serde). -/
def do_multipart {α : Type} (resp : ResponseM α) :
    Except PixelDrainErrorM α :=
  if !is_success_status resp.status then
    .error (.Api ⟨resp.status, "error", resp.text⟩)
  else
    match resp.parseT with
    | some t => .ok t
    | none => .error (.Reqwest decodeError)

/-- Outcome of one raw HTTP round trip: req.send() failing, or a response
with status, body text and the parse oracle for the expected type. -/
inductive SendOutcome (α : Type) where
  | sendErr (e : ReqwestErrorM)
  | resp (status : Nat) (text : String) (parse : Option α)

/-- ListCreationResponse DTO. -/
structure ListCreationResponseM where
  id : String
  deriving DecidableEq, Repr

/-- DetailedListInfo DTO; the fields create_list/update_list copy into
the returned ListInfo (dates and file entries are opaque to the verified
code and omitted). -/
structure DetailedListInfoM where
  id : String
  title : String
  file_count : Int
  can_edit : Bool
  deriving DecidableEq, Repr

/-- ListInfo DTO as built by create_list/update_list (files left empty). -/
structure ListInfoM where
  id : String
  title : String
  file_count : Int
  can_edit : Bool
  deriving DecidableEq, Repr

/-- Environment of one PixelDrainClient::create_list call: the outcome of
its POST /list round trip and of its follow-up GET /list round trip. -/
structure CreateListEnv where
  post : SendOutcome ListCreationResponseM
  getList : Except PixelDrainErrorM DetailedListInfoM

/-- PixelDrainClient::create_list (pixeldrain_api.rs lines 770-809):
serializes the request (infallible here), performs one POST, returns a
raw Api error for any non-success status, decodes the creation response
with resp.json() (a reqwest error on failure), then fetches the list once
via get_list and copies it into a ListInfo.  The API client itself has no
retry loop; the Transfer Coordinator wraps this call in one (see
coordinator_create_list below). -/
def create_list (env : CreateListEnv) : Except PixelDrainErrorM ListInfoM :=
  match env.post with
  | .sendErr e => .error (.Reqwest e)
  | .resp status text parse =>
    if !is_success_status status then
      .error (.Api ⟨status, "error", text⟩)
    else
      match parse with
      | none => .error (.Reqwest decodeError)
      | some _ =>
        match env.getList with
        | .error e => .error e
        | .ok d => .ok ⟨d.id, d.title, d.file_count, d.can_edit⟩

/-- Environment of one PixelDrainClient::update_list call: the outcome of
its PUT /list round trip. -/
structure UpdateListEnv where
  put : SendOutcome DetailedListInfoM

/-- PixelDrainClient::update_list (pixeldrain_api.rs lines 812-847): one
PUT; non-success statuses become raw Api errors; the body is decoded by
resp.json() (a reqwest error on failure) and copied into a ListInfo.  The
API client itself has no retry loop; the Transfer Coordinator wraps this
call in one (see coordinator_update_list below). -/
def update_list (env : UpdateListEnv) : Except PixelDrainErrorM ListInfoM :=
  match env.put with
  | .sendErr e => .error (.Reqwest e)
  | .resp status text parse =>
    if !is_success_status status then
      .error (.Api ⟨status, "error", text⟩)
    else
      match parse with
      | none => .error (.Reqwest decodeError)
      | some d => .ok ⟨d.id, d.title, d.file_count, d.can_edit⟩

/-- Retry budget of the coordinator's list operations (MAX_RETRIES in
main.rs refresh_lists, create_list, delete_list and update_list). -/
def MAX_RETRIES_LIST : Nat := 3

/-- The retry loop the Transfer Coordinator puts around its list
operations (main.rs create_list lines 1063-1119, update_list lines
1172-1230, and identically refresh_lists and delete_list): for attempt in
1..=3, call the API-client operation; on success return the value at
once; on failure consult the same inline classifier as upload_file
(timeout/connect/request/body reqwest errors and server-error statuses
are retryable) and, when retryable with attempts remaining, sleep 3
seconds and retry, otherwise break and report the last error.  op i is
the outcome of the i-th attempt's API call; the trace records the sleeps
(the coordinator reports the final error as a formatted list_error
message, modelled as the error value; the fuel-0 base is unreachable
because the budget is positive and the loop always returns or breaks). -/
def listOpLoop {α : Type} (op : Nat → Except PixelDrainErrorM α) :
    Nat → Nat → List Event × Except PixelDrainErrorM α
  | _, 0 => ([], .error (.Io "unreachable"))
  | attempt, r + 1 =>
    match op attempt with
    | .ok a => ([], .ok a)
    | .error e =>
      if should_retry e && 0 < r then
        (Event.sleep RETRY_DELAY_SECS :: (listOpLoop op (attempt + 1) r).1,
         (listOpLoop op (attempt + 1) r).2)
      else ([], .error e)

/-- The coordinator's create-list operation (main.rs lines 1063-1119):
the API client's create_list wrapped in the 3-attempt retry loop.  att i
supplies the round-trip outcomes of the i-th attempt. -/
def coordinator_create_list (att : Nat → CreateListEnv) :
    List Event × Except PixelDrainErrorM ListInfoM :=
  listOpLoop (fun i => create_list (att i)) 1 MAX_RETRIES_LIST

/-- The coordinator's update-list operation (main.rs lines 1172-1230):
the API client's update_list wrapped in the 3-attempt retry loop. -/
def coordinator_update_list (att : Nat → UpdateListEnv) :
    List Event × Except PixelDrainErrorM ListInfoM :=
  listOpLoop (fun i => update_list (att i)) 1 MAX_RETRIES_LIST

/-- Environment of upload_stream_put: the api-key check, the byte counts
the transport pulls from the unknown-length ProgressReader while sending,
and the oracle for the i-th PUT round trip. -/
structure StreamPutEnv where
  hasApiKey : Bool
  reads : List Nat
  sendResult : Nat → SendOutcome UploadResponseM

/-- upload_stream_put (pixeldrain_api.rs lines 616-649): api-key check,
then ONE PUT whose body streams through a ProgressReader in
unknown-length mode; no retry loop, and no explicit progress(1.0) call
on success — the trace holds exactly the decorator's reports. -/
def upload_stream_put (env : StreamPutEnv) :
    List Event × Except PixelDrainErrorM UploadResponseM :=
  if !env.hasApiKey then ([], .error .MissingApiKey)
  else
    match env.sendResult 1 with
    | .sendErr e =>
      ((progressReaderEvents none env.reads 0).map Event.progress, .error (.Reqwest e))
    | .resp status text parse =>
      if !is_success_status status then
        ((progressReaderEvents none env.reads 0).map Event.progress,
         .error (.Api ⟨status, "error", text⟩))
      else
        match parse with
        | none =>
          ((progressReaderEvents none env.reads 0).map Event.progress,
           .error (.Reqwest decodeError))
        | some r =>
          ((progressReaderEvents none env.reads 0).map Event.progress, .ok r)

/-- Environment of the coordinator's directory (archive) upload: whether
spawning the tar subprocess fails, and the environment of the single
streamed PUT. -/
structure DirectoryUploadEnv where
  tarSpawnErr : Option String
  stream : StreamPutEnv

/-- The coordinator's directory-upload operation (main.rs
start_directory_upload, lines 1620-1752): build the client and archive
name (pure plumbing), spawn tar writing to stdout — a spawn failure is
recorded as the operation's error and nothing is uploaded — then call
upload_stream_put exactly ONCE on the tar stdout.  There is no retry loop
around the streamed upload, no sleep, and no progress(1.0) call anywhere
on the path; waiting on the tar process and logging its stderr afterwards
do not change the recorded result. -/
def start_directory_upload (env : DirectoryUploadEnv) :
    List Event × Except PixelDrainErrorM UploadResponseM :=
  match env.tarSpawnErr with
  | some m => ([], .error (.Io m))
  | none => upload_stream_put env.stream

/-- BASE_URL constant of the source. -/
def BASE_URL : String := "https://pixeldrain.com"

/-- UploadResponse::get_file_url (pixeldrain_api.rs lines 950-952). -/
def UploadResponseM.get_file_url (r : UploadResponseM) : String :=
  BASE_URL ++ "/u/" ++ r.id

/-- WHATWG URL parsing: is the character an ASCII tab or newline (removed
from the input everywhere before parsing). -/
def isUrlTabOrNewline (c : Char) : Bool :=
  c = '\t' || c = '\n' || c = '\r'

/-- WHATWG URL parsing: is the character a C0 control or space (trimmed
from both ends of the input before parsing). -/
def isC0OrSpace (c : Char) : Bool := c.toNat ≤ 32

/-- Leading/trailing C0-control-or-space trim of the URL input. -/
def trimC0Space (cs : List Char) : List Char :=
  ((cs.dropWhile isC0OrSpace).reverse.dropWhile isC0OrSpace).reverse

/-- WHATWG URL input preprocessing: trim C0 controls and spaces at the
ends, then remove every ASCII tab and newline. -/
def preprocessUrl (cs : List Char) : List Char :=
  (trimC0Space cs).filter (fun c => !isUrlTabOrNewline c)

/-- Uppercase hex digit of a value below 16. -/
def hexDigitChar (n : Nat) : Char :=
  if n < 10 then Char.ofNat (48 + n) else Char.ofNat (55 + n)

/-- Percent-encoding of one byte. -/
def percentByte (b : Nat) : List Char :=
  ['%', hexDigitChar (b / 16), hexDigitChar (b % 16)]

/-- UTF-8 byte sequence of a code point. -/
def utf8Bytes (c : Char) : List Nat :=
  let n := c.toNat
  if n < 128 then [n]
  else if n < 2048 then [192 + n / 64, 128 + n % 64]
  else if n < 65536 then [224 + n / 4096, 128 + n / 64 % 64, 128 + n % 64]
  else [240 + n / 262144, 128 + n / 4096 % 64, 128 + n / 64 % 64, 128 + n % 64]

/-- WHATWG path percent-encode set, by code point: C0 controls (at most
31), every code point above tilde (at least 127), space (32), double
quote (34), angle brackets (60 and 62), backquote (96) and curly brackets
(123 and 125). -/
def inPathEncodeSet (c : Char) : Bool :=
  c.toNat ≤ 31 || 127 ≤ c.toNat || c.toNat = 32 || c.toNat = 34 ||
  c.toNat = 60 || c.toNat = 62 || c.toNat = 96 || c.toNat = 123 || c.toNat = 125

/-- A path character is copied verbatim unless it is in the path
percent-encode set, in which case its UTF-8 bytes are percent-encoded. -/
def encodePathChar (c : Char) : List Char :=
  if inPathEncodeSet c then ((utf8Bytes c).map percentByte).flatten else [c]

/-- WHATWG single-dot path segment (the percent form case-insensitively). -/
def isSingleDotSeg (s : List Char) : Bool :=
  s = ['.'] || s = ['%', '2', 'e'] || s = ['%', '2', 'E']

/-- WHATWG double-dot path segment (all percent-form variants). -/
def isDoubleDotSeg (s : List Char) : Bool :=
  [['.', '.'], ['.', '%', '2', 'e'], ['.', '%', '2', 'E'],
   ['%', '2', 'e', '.'], ['%', '2', 'E', '.'],
   ['%', '2', 'e', '%', '2', 'e'], ['%', '2', 'e', '%', '2', 'E'],
   ['%', '2', 'E', '%', '2', 'e'], ['%', '2', 'E', '%', '2', 'E']].contains s

/-- WHATWG path state on a finished segment buffer:  a double-dot segment
pops the previous segment, a single-dot segment is dropped, anything else
is appended; away from a separator the dot cases append an empty final
segment.  atSep is true when the segment ended at a slash or backslash. -/
def closeSeg (segs : List (List Char)) (buf : List Char) (atSep : Bool) :
    List (List Char) :=
  if isDoubleDotSeg buf then
    (if atSep then segs.dropLast else segs.dropLast ++ [[]])
  else if isSingleDotSeg buf then
    (if atSep then segs else segs ++ [[]])
  else segs ++ [buf]

/-- WHATWG path state machine for a special (https) URL: slash and
backslash end a segment, question mark and hash end the path, everything
else is percent-encoded into the segment buffer (held reversed). -/
def pathLoop : List Char → List (List Char) → List Char → List (List Char)
  | [], segs, bufRev => closeSeg segs bufRev.reverse false
  | c :: rest, segs, bufRev =>
    if c = '/' || c = '\\' then pathLoop rest (closeSeg segs bufRev.reverse true) []
    else if c = '?' || c = '#' then closeSeg segs bufRev.reverse false
    else pathLoop rest segs ((encodePathChar c).reverse ++ bufRev)

/-- Serialization of a URL path: a slash before every segment. -/
def serializePath (segs : List (List Char)) : List Char :=
  segs.foldr (fun s acc => '/' :: (s ++ acc)) []

/-- The fixed scheme-and-host part of every URL the verified code builds. -/
def urlHostPart : List Char := "https://pixeldrain.com".data

/-- Modelled from the WHATWG URL Standard as implemented by the external
url crate (url::Url::parse followed by Url::path), restricted to absolute
https URLs on the fixed pixeldrain.com host — the only URLs that
UploadResponse::get_file_url produces and hence the only inputs the
round-trip claim exercises.  Inputs that do not begin with that
scheme-and-host after preprocessing are outside the model's scope and
map to none (an InvalidUrl error downstream). -/
def urlParsePath (cs : List Char) : Option (List Char) :=
  let cs := preprocessUrl cs
  if cs.take urlHostPart.length = urlHostPart then
    match cs.drop urlHostPart.length with
    | [] => some ['/']
    | c :: rest =>
      if c = '/' || c = '\\' then some (serializePath (pathLoop rest [] []))
      else if c = '?' || c = '#' then some ['/']
      else none
  else none

/-- extract_file_id (pixeldrain_api.rs lines 671-693): parse the URL (a
parse failure becomes InvalidUrl), then strip a leading "/u/" or
"/api/file/" from the path and require a non-empty remainder. -/
def extract_file_id (url : String) : Except PixelDrainErrorM String :=
  match urlParsePath url.data with
  | none => .error (.InvalidUrl "URL parse error")
  | some path =>
    if path.take 3 = ['/', 'u', '/'] then
      (let id := path.drop 3
       if id ≠ [] then .ok (String.mk id)
       else .error (.InvalidUrl "Could not extract file ID from URL"))
    else if path.take 10 = "/api/file/".data then
      (let id := path.drop 10
       if id ≠ [] then .ok (String.mk id)
       else .error (.InvalidUrl "Could not extract file ID from URL"))
    else .error (.InvalidUrl "Could not extract file ID from URL")

/-- Characters of a file id that survive the URL round trip verbatim, by
code point: visible ASCII (33-126) that is neither a path separator or
terminator — slash (47), backslash (92), question mark (63), hash (35) —
nor in the path percent-encode set — double quote (34), angle brackets
(60, 62), backquote (96), curly brackets (123, 125). -/
def goodChar (c : Char) : Bool :=
  33 ≤ c.toNat && c.toNat ≤ 126 &&
  c.toNat ≠ 47 && c.toNat ≠ 92 && c.toNat ≠ 63 && c.toNat ≠ 35 &&
  c.toNat ≠ 34 && c.toNat ≠ 60 && c.toNat ≠ 62 && c.toNat ≠ 96 &&
  c.toNat ≠ 123 && c.toNat ≠ 125

/-- Decidable equality for Except values (used to evaluate the models on
concrete inputs). -/
instance {ε α : Type} [DecidableEq ε] [DecidableEq α] : DecidableEq (Except ε α)
  | .ok a, .ok b => if h : a = b then isTrue (by rw [h]) else isFalse (by simp [h])
  | .ok _, .error _ => isFalse (by simp)
  | .error _, .ok _ => isFalse (by simp)
  | .error a, .error b => if h : a = b then isTrue (by rw [h]) else isFalse (by simp [h])

/-- Whether an Except value is a success. -/
def isOkE {ε α : Type} : Except ε α → Bool
  | .ok _ => true
  | .error _ => false

/-- Whether an attempt block begins with a progress-0 report. -/
def blockHead0 (b : List Event) : Bool :=
  b.head? == some (Event.progress 0)

/-- Whether an event is an admissible sleep: every sleep lasts 3 seconds. -/
def sleepOk : Event → Bool
  | .sleep s => s == RETRY_DELAY_SECS
  | _ => true

/-- A download attempt outcome that fails before its body is read:
req.send() errors or a non-success status. -/
def downloadAttemptFails : DownloadAttemptOutcome → Bool
  | .sendErr _ => true
  | .resp r => !is_success_status r.status

/-- Whether a download attempt outcome carries no Content-Length header. -/
def noContentLength : DownloadAttemptOutcome → Bool
  | .sendErr _ => true
  | .resp r => r.content_length.isNone

/-- Whether an event is a progress report of exactly 0 or exactly 1, or a
3-second sleep. -/
def progressZeroOrOne : Event → Bool
  | .progress v => v == 0 || v == 1
  | .sleep s => s == RETRY_DELAY_SECS

/-! ### C2: the retryability classifier -/

/-- C2 counterexample: the claim marks every Api error with status at
least 500 retryable, but the classifier tests StatusCode::is_server_error,
i.e. 500-599 only; the valid HTTP status 600 is at least 500 yet is
classified terminal. -/
theorem c2_counterexample :
    500 ≤ 600 ∧
    should_retry (.Api ⟨600, "error", "unusual upstream status"⟩) = false := by
  decide

/-- C2 amended: the classifier marks the four network-level reqwest
failure kinds and Api errors with status 500-599 retryable and everything
else (Api with any other status, Io, Serde, InvalidUrl, FileNotFound,
MissingApiKey) terminal: should_retry coincides with the classifier
written out from the amended claim. -/
theorem c2_classifier_amended :
    ∀ e : PixelDrainErrorM, should_retry e = retryableAmendedSpec e := by
  intro e
  cases e with
  | Api a =>
    simp only [should_retry, retryableAmendedSpec, is_server_error]
    by_cases h5 : 500 ≤ a.status <;> by_cases h6 : a.status ≤ 599 <;>
      simp [h5, h6] <;> omega
  | _ => rfl

/-! ### C7: zero-length reads and the known-length callback -/

/-- C7 counterexample: in known-length mode (total 10, a 5-byte read then
a zero-byte end-of-stream read) the callback is invoked twice, once per
read; the claim that a zero-byte read produces no invocation would give a
single report. -/
theorem c7_counterexample :
    progressReaderEvents (some 10) [5, 0] 0 = [1 / 2, 1 / 2] ∧
    (progressReaderEvents (some 10) [5, 0] 0).length ≠ 1 := by
  norm_num [progressReaderEvents]

/-- C7 amended: in known-length mode with a positive total the callback
is invoked after EVERY read, including a zero-byte end-of-stream read,
which repeats the unchanged value min(cumulative/total, 1); the number of
reports equals the number of reads. -/
theorem c7_amended (t : Nat) (ht : 0 < t) (reads : List Nat) (c : Nat) :
    progressReaderEvents (some t) (reads ++ [0]) c =
      progressReaderEvents (some t) reads c ++
        [min (((c + reads.sum : Nat) : ℚ) / (t : ℚ)) 1] ∧
    (progressReaderEvents (some t) reads c).length = reads.length := by
  induction reads generalizing c with
  | nil => simp [progressReaderEvents, ht]
  | cons n rest ih =>
    have h := ih (c + n)
    have hsum : c + (n + rest.sum) = (c + n) + rest.sum := by omega
    constructor
    · simp only [List.cons_append, progressReaderEvents, ht, if_true, List.sum_cons, hsum,
        List.append_eq]
      rw [h.1]
    · simp only [progressReaderEvents, ht, if_true, List.length_cons, h.2]

/-- C7 amended witness at total 10, reads [5]. -/
theorem c7_amended_witness :
    progressReaderEvents (some 10) ([5] ++ [0]) 0 =
      progressReaderEvents (some 10) [5] 0 ++
        [min (((0 + [5].sum : Nat) : ℚ) / (10 : ℚ)) 1] ∧
    (progressReaderEvents (some 10) [5] 0).length = [5].length :=
  c7_amended 10 (by decide) [5] 0

/-! ### C4: unknown-length progress cap -/

/-- Every value the unknown-length decorator reports is at most 0.95. -/
lemma stream_events_le_cap (reads : List Nat) (c : Nat) :
    ∀ v ∈ progressReaderEvents none reads c, v ≤ 19 / 20 := by
  induction reads generalizing c with
  | nil => intro v hv; simp [progressReaderEvents] at hv
  | cons n rest ih =>
    intro v hv
    simp only [progressReaderEvents, List.mem_cons] at hv
    rcases hv with h | h
    · rw [h]; exact min_le_right _ _
    · exact ih (c + n) v h

/-- The event trace of upload_stream_put is exactly the unknown-length
decorator's reports (or empty when the api-key check fails). -/
lemma upload_stream_put_trace (env : StreamPutEnv) :
    (upload_stream_put env).1 =
      if env.hasApiKey then (progressReaderEvents none env.reads 0).map Event.progress
      else [] := by
  unfold upload_stream_put
  cases h : env.hasApiKey
  · simp
  · simp only [Bool.not_true, Bool.false_eq_true, if_false, if_true]
    cases env.sendResult 1 with
    | sendErr e => rfl
    | resp s t p =>
      by_cases hs : is_success_status s
      · cases p <;> simp [hs]
      · simp [hs]

/-- The trace of upload_stream_put never contains a progress-1.0 report:
every report is a decorator estimate of at most 0.95. -/
lemma upload_stream_put_no_one (env : StreamPutEnv) :
    ((upload_stream_put env).1.all fun e => e != Event.progress 1) = true := by
  rw [List.all_eq_true, upload_stream_put_trace]
  intro e he
  by_cases hk : env.hasApiKey
  · rw [if_pos hk] at he
    rcases List.mem_map.mp he with ⟨v, hv, rfl⟩
    have hle := stream_events_le_cap env.reads 0 v hv
    have hne : v ≠ 1 := by intro h; rw [h] at hle; norm_num at hle
    simpa [bne_iff_ne] using hne
  · rw [if_neg hk] at he
    simp at he

/-- C4 counterexample: a streamed upload of 524288 bytes whose single PUT
succeeds.  The operation completes successfully, yet its only progress
report is the 0.5 estimate and no report — of the decorator, of
upload_stream_put, or of the coordinator's directory-upload path wrapped
around it — ever equals 1.0: the surrounding operation does NOT set
progress to 1.0 after completing successfully, so streamed progress never
reaches 1.0 at all. -/
theorem c4_counterexample :
    upload_stream_put ⟨true, [524288], fun _ => .resp 201 "" (some ⟨"F1"⟩)⟩ =
      ([Event.progress (min ((524288 : ℚ) / 1048576) (19 / 20))], .ok ⟨"F1"⟩) ∧
    start_directory_upload
        ⟨none, ⟨true, [524288], fun _ => .resp 201 "" (some ⟨"F1"⟩)⟩⟩ =
      upload_stream_put ⟨true, [524288], fun _ => .resp 201 "" (some ⟨"F1"⟩)⟩ ∧
    min ((524288 : ℚ) / 1048576) (19 / 20) ≠ 1 ∧
    ((upload_stream_put ⟨true, [524288], fun _ => .resp 201 "" (some ⟨"F1"⟩)⟩).1.all
      fun e => e != Event.progress 1) = true := by
  have hne : min ((524288 : ℚ) / 1048576) (19 / 20) ≠ 1 := by norm_num
  have h1 : upload_stream_put ⟨true, [524288], fun _ => .resp 201 "" (some ⟨"F1"⟩)⟩ =
      ([Event.progress (min ((524288 : ℚ) / 1048576) (19 / 20))], .ok ⟨"F1"⟩) := by
    norm_num [upload_stream_put, progressReaderEvents, is_success_status]
  refine ⟨h1, rfl, hne, ?_⟩
  rw [h1]
  simp only [List.all_cons, List.all_nil, Bool.and_true]
  simp [bne_iff_ne, hne]

/-- C4 amended: in unknown-length (streaming) mode every value the
decorator reports is capped at 0.95, so it never reports exactly 1.0
before the underlying stream signals end of data; and neither
upload_stream_put nor the coordinator's directory-upload path around it
ever reports or sets 1.0 — after a successful streamed upload the stored
progress simply remains at the last sub-0.95 estimate. -/
theorem c4_stream_progress_capped (reads : List Nat) (c : Nat) (env : StreamPutEnv)
    (denv : DirectoryUploadEnv) :
    ((progressReaderEvents none reads c).all fun v => decide (v ≤ 19 / 20)) = true ∧
    ((upload_stream_put env).1.all fun e => e != Event.progress 1) = true ∧
    ((start_directory_upload denv).1.all fun e => e != Event.progress 1) = true := by
  refine ⟨?_, upload_stream_put_no_one env, ?_⟩
  · rw [List.all_eq_true]
    intro v hv
    exact decide_eq_true (stream_events_le_cap reads c v hv)
  · unfold start_directory_upload
    cases denv.tarSpawnErr with
    | some m => rfl
    | none => exact upload_stream_put_no_one denv.stream

/-! ### C9: transport response handling -/

/-- C9 counterexample: a 404 multipart response whose body parses as the
structured error object is still reported by do_multipart with the value
tag "error" and the raw body text, not the parsed value and message — the
multipart transport path never attempts the structured parse. -/
theorem c9_counterexample :
    do_multipart
        (⟨404, "structured error body",
          some ⟨some "not_found", some "file does not exist"⟩,
          (none : Option UploadResponseM)⟩ : ResponseM UploadResponseM) =
      .error (.Api ⟨404, "error", "structured error body"⟩) ∧
    ("error" : String) ≠ "not_found" := by
  constructor
  · rfl
  · decide

/-- C9 amended: parse_json_response behaves exactly as the claim states
(structured parse with raw-text fallback for statuses at least 400, a
Serde error distinct from Api for an undecodable success body); the
multipart path do_multipart instead always uses value tag "error" with
the raw body text for every non-success status and turns an undecodable
success body into a reqwest body-decode error, not a Serde error. -/
theorem c9_amended {α : Type} (resp : ResponseM α) (ae : ApiErrorResponseM) (t : α) :
    (400 ≤ resp.status ∧ resp.parseApiError = some ae →
      parse_json_response resp =
        .error (.Api ⟨resp.status, ae.value.getD "error", ae.message.getD "Unknown error"⟩)) ∧
    (400 ≤ resp.status ∧ resp.parseApiError = none →
      parse_json_response resp = .error (.Api ⟨resp.status, "error", resp.text⟩)) ∧
    (resp.status < 400 ∧ resp.parseT = none →
      parse_json_response resp = .error .Serde) ∧
    (resp.status < 400 ∧ resp.parseT = some t →
      parse_json_response resp = .ok t) ∧
    (is_success_status resp.status = false →
      do_multipart resp = .error (.Api ⟨resp.status, "error", resp.text⟩)) ∧
    (is_success_status resp.status = true ∧ resp.parseT = none →
      do_multipart resp = .error (.Reqwest decodeError)) ∧
    (PixelDrainErrorM.Serde ≠ .Api ⟨resp.status, "error", resp.text⟩) := by
  refine ⟨?_, ?_, ?_, ?_, ?_, ?_, ?_⟩
  · rintro ⟨h1, h2⟩
    simp [parse_json_response, h1, h2]
  · rintro ⟨h1, h2⟩
    simp [parse_json_response, h1, h2]
  · rintro ⟨h1, h2⟩
    simp [parse_json_response, Nat.not_le.mpr h1, h2]
  · rintro ⟨h1, h2⟩
    simp [parse_json_response, Nat.not_le.mpr h1, h2]
  · intro h
    simp [do_multipart, h]
  · rintro ⟨h1, h2⟩
    simp [do_multipart, h1, h2]
  · intro h
    cases h

/-- C9 amended witness: a 404 with parseable structured body, a 404 with
an unparseable body, a 200 with an undecodable success body on both
transport paths, and a 503 multipart response. -/
theorem c9_amended_witness :
    parse_json_response
        (⟨404, "raw", some ⟨some "not_found", some "no file"⟩, (none : Option Nat)⟩ :
          ResponseM Nat) = .error (.Api ⟨404, "not_found", "no file"⟩) ∧
    parse_json_response (⟨404, "raw", none, (none : Option Nat)⟩ : ResponseM Nat) =
      .error (.Api ⟨404, "error", "raw"⟩) ∧
    parse_json_response (⟨200, "raw", none, (none : Option Nat)⟩ : ResponseM Nat) =
      .error .Serde ∧
    do_multipart (⟨503, "raw", none, (none : Option Nat)⟩ : ResponseM Nat) =
      .error (.Api ⟨503, "error", "raw"⟩) ∧
    do_multipart (⟨200, "raw", none, (none : Option Nat)⟩ : ResponseM Nat) =
      .error (.Reqwest decodeError) :=
  ⟨(c9_amended _ ⟨some "not_found", some "no file"⟩ 0).1 ⟨by decide, rfl⟩,
   (c9_amended _ ⟨none, none⟩ 0).2.1 ⟨by decide, rfl⟩,
   (c9_amended _ ⟨none, none⟩ 0).2.2.1 ⟨by decide, rfl⟩,
   (c9_amended _ ⟨none, none⟩ 0).2.2.2.2.1 (by decide),
   (c9_amended _ ⟨none, none⟩ 0).2.2.2.2.2.1 ⟨by decide, rfl⟩⟩

/-! ### C5: the download mid-body read-error path -/

/-- C5: concrete run of download_file exhibiting the divergence.  Attempt
1 returns status 200 with Content-Length 1000 but the body errors after
100 bytes; later attempts would succeed in full.  The source's read-error
branch sleeps 3 seconds and then BREAKS into the success epilogue, so the
operation reports progress 1.0 and returns Ok after a single attempt with
only 100 of 1000 bytes written — instead of performing a fresh attempt as
the specification requires. -/
theorem c5_download_read_error_returns_ok :
    download_file (fun i =>
        if i = 1 then .resp ⟨200, "", some 1000, none, [.chunk 100, .readErr]⟩
        else .resp ⟨200, "", some 1000, none, [.chunk 1000, .chunk 0]⟩) =
      ([[Event.progress 0, Event.progress (1 / 10), Event.sleep 3, Event.progress 1]],
        .ok ()) ∧
    (readLoop 1000 true [.chunk 100, .readErr] 0).2 = (100, .errBreak) := by
  constructor
  · norm_num [download_file, downloadLoop, readLoop, MAX_RETRIES_DOWNLOAD,
      RETRY_DELAY_SECS, is_success_status]
  · rfl

/-! ### C1: known-length progress accounting -/

/-- In known-length mode the report sequence is exactly the running
cumulative counters mapped through min(cumulative/total, 1). -/
lemma reader_events_eq_map (N : Nat) (hN : 0 < N) :
    ∀ (reads : List Nat) (c : Nat),
      progressReaderEvents (some N) reads c =
        (cumSums c reads).map (fun r => min ((r : ℚ) / (N : ℚ)) 1) := by
  intro reads
  induction reads with
  | nil => intro c; rfl
  | cons n rest ih =>
    intro c
    simp [progressReaderEvents, cumSums, hN, ih]

/-- Every known-length report is nonnegative. -/
lemma reader_events_nonneg (N : Nat) (reads : List Nat) (c : Nat) :
    ∀ v ∈ progressReaderEvents (some N) reads c, 0 ≤ v := by
  induction reads generalizing c with
  | nil => intro v hv; simp [progressReaderEvents] at hv
  | cons n rest ih =>
    intro v hv
    by_cases hN : 0 < N
    · simp only [progressReaderEvents, hN, if_true, List.mem_cons] at hv
      rcases hv with h | h
      · rw [h]
        exact le_min (by positivity) (by norm_num)
      · exact ih (c + n) v h
    · simp only [progressReaderEvents, hN, if_false] at hv
      exact ih (c + n) v hv

/-- Every known-length report is at most 1. -/
lemma reader_events_le_one (N : Nat) (reads : List Nat) (c : Nat) :
    ∀ v ∈ progressReaderEvents (some N) reads c, v ≤ 1 := by
  induction reads generalizing c with
  | nil => intro v hv; simp [progressReaderEvents] at hv
  | cons n rest ih =>
    intro v hv
    by_cases hN : 0 < N
    · simp only [progressReaderEvents, hN, if_true, List.mem_cons] at hv
      rcases hv with h | h
      · rw [h]; exact min_le_right _ _
      · exact ih (c + n) v h
    · simp only [progressReaderEvents, hN, if_false] at hv
      exact ih (c + n) v hv

/-- Every known-length report starting from counter c is at least
min(c/N, 1): the report sequence never drops below its starting level. -/
lemma reader_events_ge (N : Nat) (hN : 0 < N) (reads : List Nat) (c : Nat) :
    ∀ v ∈ progressReaderEvents (some N) reads c,
      min ((c : ℚ) / (N : ℚ)) 1 ≤ v := by
  induction reads generalizing c with
  | nil => intro v hv; simp [progressReaderEvents] at hv
  | cons n rest ih =>
    intro v hv
    have hNq : (0 : ℚ) < (N : ℚ) := by exact_mod_cast hN
    have hstep : min ((c : ℚ) / (N : ℚ)) 1 ≤ min (((c + n : Nat) : ℚ) / (N : ℚ)) 1 := by
      refine min_le_min ?_ le_rfl
      refine (div_le_div_iff_of_pos_right hNq).mpr ?_
      exact_mod_cast Nat.le_add_right c n
    simp only [progressReaderEvents, hN, if_true, List.mem_cons] at hv
    rcases hv with h | h
    · rw [h]; exact hstep
    · exact le_trans hstep (ih (c + n) v h)

/-- In known-length mode with positive total the report sequence is
non-decreasing. -/
lemma reader_events_chain (N : Nat) (hN : 0 < N) (reads : List Nat) (c : Nat) :
    List.Chain' (· ≤ ·) (progressReaderEvents (some N) reads c) := by
  induction reads generalizing c with
  | nil => exact List.chain'_nil
  | cons n rest ih =>
    simp only [progressReaderEvents, hN, if_true]
    rw [List.chain'_cons']
    constructor
    · intro y hy
      exact reader_events_ge N hN rest (c + n) y (List.mem_of_mem_head? hy)
    · exact ih (c + n)

/-- The full report sequence of one successful known-length attempt —
the 0.0 reset, the per-read reports and the final explicit 1.0 — is
non-decreasing. -/
lemma attempt_chain (N : Nat) (hN : 0 < N) (reads : List Nat) :
    List.Chain' (· ≤ ·)
      (((0 : ℚ) :: progressReaderEvents (some N) reads 0) ++ [1]) := by
  rw [List.chain'_append]
  refine ⟨?_, List.chain'_singleton _, ?_⟩
  · rw [List.chain'_cons']
    exact ⟨fun y hy => reader_events_nonneg N reads 0 y (List.mem_of_mem_head? hy),
      reader_events_chain N hN reads 0⟩
  · intro x hx y hy
    simp only [List.head?_cons, Option.mem_def, Option.some.injEq] at hy
    subst hy
    obtain ⟨h, rfl⟩ := List.mem_getLast?_eq_getLast hx
    rcases List.mem_cons.mp (List.getLast_mem h) with h0 | hmem
    · rw [h0]; norm_num
    · exact reader_events_le_one N reads 0 _ hmem

/-- When the upload retry loop succeeds, the last event of its flattened
trace is the explicit final progress-1.0 report. -/
lemma uploadLoop_ok_last (fs : Nat) (att : Nat → UploadAttempt) :
    ∀ (r attempt : Nat), isOkE (uploadLoop fs att attempt r).2 = true →
      ((uploadLoop fs att attempt r).1.flatten).getLast? =
        some (Event.progress 1) := by
  intro r
  induction r with
  | zero => intro attempt h; simp [uploadLoop, isOkE] at h
  | succ r ih =>
    intro attempt h
    simp only [uploadLoop] at h ⊢
    cases ho : (att attempt).openErr with
    | some m => simp [ho, isOkE] at h
    | none =>
      simp only [ho] at h ⊢
      cases hr : (att attempt).result with
      | ok resp =>
        simp only [hr]
        rw [List.flatten_cons, List.flatten_nil, List.append_nil,
          List.getLast?_concat]
      | error e =>
        simp only [hr] at h ⊢
        cases hc : should_retry e && decide (0 < r) with
        | false => simp [hc, isOkE] at h
        | true =>
          simp only [hc, if_true] at h ⊢
          have h2 := ih (attempt + 1) h
          rw [List.flatten_cons]
          have hne : ((uploadLoop fs att (attempt + 1) r).1.flatten) ≠ [] := by
            intro hnil
            rw [hnil] at h2
            simp at h2
          rw [List.getLast?_append_of_ne_nil _ hne]
          exact h2

/-- C1: for a known-length upload of size N > 0, each read advances the
cumulative counter and reports min(cumulative/N, 1); within one attempt
the reported sequence (0.0 reset, per-read reports, final 1.0) is
non-decreasing; and when upload_file succeeds the last reported value of
the whole operation is exactly 1.0. -/
theorem c1_known_length_progress (N : Nat) (hN : 0 < N) (reads : List Nat) (c : Nat)
    (env : UploadEnv) (_hsz : env.fileSize = N) :
    progressReaderEvents (some N) reads c =
      (cumSums c reads).map (fun r => min ((r : ℚ) / (N : ℚ)) 1) ∧
    List.Chain' (· ≤ ·)
      (((0 : ℚ) :: progressReaderEvents (some N) reads 0) ++ [1]) ∧
    (isOkE (upload_file env).2 = true →
      ((upload_file env).1.flatten).getLast? = some (Event.progress 1)) := by
  refine ⟨reader_events_eq_map N hN reads c, attempt_chain N hN reads, ?_⟩
  intro h
  unfold upload_file at h ⊢
  cases hf : env.fileExists with
  | false => simp [isOkE, hf] at h
  | true =>
    cases hk : env.hasApiKey with
    | false => simp [isOkE, hf, hk] at h
    | true =>
      simp only [hf, hk, Bool.not_true, Bool.false_eq_true, if_false] at h ⊢
      exact uploadLoop_ok_last env.fileSize env.attempts MAX_RETRIES_UPLOAD 1 h

/-- C1 witness: size 2, reads of 1, 0 and 3 bytes, and an upload whose
first attempt succeeds. -/
theorem c1_known_length_progress_witness :
    progressReaderEvents (some 2) [1, 0, 3] 0 =
      (cumSums 0 [1, 0, 3]).map (fun r => min ((r : ℚ) / (2 : ℚ)) 1) ∧
    List.Chain' (· ≤ ·)
      (((0 : ℚ) :: progressReaderEvents (some 2) [1, 0, 3] 0) ++ [1]) ∧
    (isOkE (upload_file ⟨true, true, 2, fun _ => ⟨none, [1, 0, 3], .ok ⟨"X"⟩⟩⟩).2 = true →
      ((upload_file ⟨true, true, 2, fun _ => ⟨none, [1, 0, 3], .ok ⟨"X"⟩⟩⟩).1.flatten).getLast? =
        some (Event.progress 1)) :=
  c1_known_length_progress 2 (by decide) [1, 0, 3] 0 _ rfl

/-! ### C3: retry budgets, resets and delays -/

/-- Mapped progress reports contain no sleeps. -/
lemma all_sleepOk_map_progress (l : List ℚ) :
    ((l.map Event.progress).all sleepOk) = true := by
  rw [List.all_eq_true]
  intro e he
  rcases List.mem_map.mp he with ⟨v, _, rfl⟩
  rfl

/-- Every sleep the download read loop emits lasts 3 seconds. -/
lemma readLoop_events_sleepOk (cl : Nat) (canRetry : Bool) :
    ∀ (body : List ReadResult) (d : Nat),
      ((readLoop cl canRetry body d).1.all sleepOk) = true := by
  intro body
  induction body with
  | nil => intro d; rfl
  | cons x rest ih =>
    intro d
    cases x with
    | chunk n =>
      cases n with
      | zero => rfl
      | succ n =>
        simp only [readLoop, List.all_cons, Bool.and_eq_true]
        exact ⟨rfl, ih (d + (n + 1))⟩
    | readErr => cases canRetry <;> rfl
    | writeErr => rfl

/-- The upload loop produces at most as many attempt blocks as it has
fuel. -/
lemma uploadLoop_length (fs : Nat) (att : Nat → UploadAttempt) :
    ∀ (r attempt : Nat), (uploadLoop fs att attempt r).1.length ≤ r := by
  intro r
  induction r with
  | zero => intro attempt; simp [uploadLoop]
  | succ r ih =>
    intro attempt
    simp only [uploadLoop]
    cases ho : (att attempt).openErr with
    | some m => simp
    | none =>
      cases hr : (att attempt).result with
      | ok resp => simp
      | error e =>
        cases hc : should_retry e && decide (0 < r) with
        | false => simp [hc]
        | true =>
          simp only [hc, if_true, List.length_cons]
          have := ih (attempt + 1)
          omega

/-- The download loop produces at most as many attempt blocks as it has
fuel. -/
lemma downloadLoop_length (att : Nat → DownloadAttemptOutcome) :
    ∀ (r attempt : Nat) (lastErr : Option PixelDrainErrorM),
      (downloadLoop att attempt r lastErr).1.length ≤ r := by
  intro r
  induction r with
  | zero => intro attempt lastErr; simp [downloadLoop]
  | succ r ih =>
    intro attempt lastErr
    simp only [downloadLoop]
    cases att attempt with
    | sendErr e =>
      by_cases hr : 0 < r
      · simp only [hr, if_true, List.length_cons]
        have := ih (attempt + 1) (some (.Reqwest e))
        omega
      · simp [hr]
    | resp resp =>
      by_cases hs : is_success_status resp.status
      · simp only [hs, Bool.not_true, Bool.false_eq_true, if_false]
        cases resp.createErr with
        | some m => simp
        | none =>
          cases (readLoop (resp.content_length.getD 0) (0 < r) resp.body 0).2.2 <;> simp
      · simp only [Bool.not_eq_true'] at hs
        simp only [hs, Bool.not_false, if_true]
        cases hc : is_server_error resp.status && decide (0 < r) with
        | false => simp [hc]
        | true =>
          simp only [hc, if_true, List.length_cons]
          have := ih (attempt + 1) (some (.Api ⟨resp.status, "error", resp.errText⟩))
          omega

/-- Every block of the upload loop starts with the progress-0 reset and
all its sleeps last 3 seconds. -/
lemma uploadLoop_blocks (fs : Nat) (att : Nat → UploadAttempt) :
    ∀ (r attempt : Nat), ∀ b ∈ (uploadLoop fs att attempt r).1,
      blockHead0 b = true ∧ (b.all sleepOk) = true := by
  intro r
  induction r with
  | zero => intro attempt b hb; simp [uploadLoop] at hb
  | succ r ih =>
    intro attempt b hb
    simp only [uploadLoop] at hb
    cases ho : (att attempt).openErr with
    | some m =>
      simp only [ho, List.mem_singleton] at hb
      subst hb
      exact ⟨rfl, rfl⟩
    | none =>
      simp only [ho] at hb
      cases hr : (att attempt).result with
      | ok resp =>
        simp only [hr, List.mem_singleton] at hb
        subst hb
        refine ⟨rfl, ?_⟩
        simp [List.all_append, List.all_cons, all_sleepOk_map_progress, sleepOk]
      | error e =>
        cases hc : should_retry e && decide (0 < r) with
        | false =>
          simp only [hr, hc, Bool.false_eq_true, if_false, List.mem_singleton] at hb
          subst hb
          refine ⟨rfl, ?_⟩
          simp [List.all_cons, all_sleepOk_map_progress, sleepOk]
        | true =>
          simp only [hr, hc, if_true, List.mem_cons] at hb
          rcases hb with hb | hb
          · subst hb
            refine ⟨rfl, ?_⟩
            simp [List.all_append, List.all_cons, all_sleepOk_map_progress, sleepOk]
          · exact ih (attempt + 1) b hb

/-- Every block of the download loop starts with the progress-0 reset and
all its sleeps last 3 seconds. -/
lemma downloadLoop_blocks (att : Nat → DownloadAttemptOutcome) :
    ∀ (r attempt : Nat) (lastErr : Option PixelDrainErrorM),
      ∀ b ∈ (downloadLoop att attempt r lastErr).1,
        blockHead0 b = true ∧ (b.all sleepOk) = true := by
  intro r
  induction r with
  | zero => intro attempt lastErr b hb; simp [downloadLoop] at hb
  | succ r ih =>
    intro attempt lastErr b hb
    simp only [downloadLoop] at hb
    cases ha : att attempt with
    | sendErr e =>
      simp only [ha] at hb
      by_cases hr : 0 < r
      · simp only [hr, if_true, List.mem_cons] at hb
        rcases hb with hb | hb
        · subst hb; exact ⟨rfl, rfl⟩
        · exact ih (attempt + 1) (some (.Reqwest e)) b hb
      · simp only [hr, if_false, List.mem_singleton] at hb
        subst hb
        exact ⟨rfl, rfl⟩
    | resp resp =>
      simp only [ha] at hb
      by_cases hs : is_success_status resp.status
      · simp only [hs, Bool.not_true, Bool.false_eq_true, if_false] at hb
        cases hce : resp.createErr with
        | some m =>
          simp only [hce, List.mem_singleton] at hb
          subst hb
          exact ⟨rfl, rfl⟩
        | none =>
          simp only [hce] at hb
          have hrl := readLoop_events_sleepOk (resp.content_length.getD 0)
            (decide (0 < r)) resp.body 0
          cases hex : (readLoop (resp.content_length.getD 0) (decide (0 < r)) resp.body 0).2.2 with
          | eof =>
            simp only [hex, List.mem_singleton] at hb
            subst hb
            refine ⟨rfl, ?_⟩
            simp only [List.all_append, List.all_cons, List.all_nil, Bool.and_eq_true]
            exact ⟨⟨rfl, hrl⟩, rfl, trivial⟩
          | errBreak =>
            simp only [hex, List.mem_singleton] at hb
            subst hb
            refine ⟨rfl, ?_⟩
            simp only [List.all_append, List.all_cons, List.all_nil, Bool.and_eq_true]
            exact ⟨⟨rfl, hrl⟩, rfl, trivial⟩
          | errReturn =>
            simp only [hex, List.mem_singleton] at hb
            subst hb
            refine ⟨rfl, ?_⟩
            simp only [List.all_cons, Bool.and_eq_true]
            exact ⟨rfl, hrl⟩
      · simp only [Bool.not_eq_true'] at hs
        simp only [hs, Bool.not_false, if_true] at hb
        cases hc : is_server_error resp.status && decide (0 < r) with
        | false =>
          simp only [hc, Bool.false_eq_true, if_false, List.mem_singleton] at hb
          subst hb
          exact ⟨rfl, rfl⟩
        | true =>
          simp only [hc, if_true, List.mem_cons] at hb
          rcases hb with hb | hb
          · subst hb; exact ⟨rfl, rfl⟩
          · exact ih (attempt + 1) (some (.Api ⟨resp.status, "error", resp.errText⟩)) b hb

/-- If every attempt the upload loop can reach fails, the loop returns an
error. -/
lemma uploadLoop_all_fail (fs : Nat) (att : Nat → UploadAttempt) :
    ∀ (r attempt : Nat),
      (∀ i, attempt ≤ i → i < attempt + r → isOkE (att i).result = false) →
      isOkE (uploadLoop fs att attempt r).2 = false := by
  intro r
  induction r with
  | zero => intro attempt _; rfl
  | succ r ih =>
    intro attempt h
    simp only [uploadLoop]
    cases ho : (att attempt).openErr with
    | some m => rfl
    | none =>
      cases hr : (att attempt).result with
      | ok resp =>
        have hfail := h attempt le_rfl (by omega)
        rw [hr] at hfail
        simp [isOkE] at hfail
      | error e =>
        cases hc : should_retry e && decide (0 < r) with
        | false => simp [hc, isOkE]
        | true =>
          simp only [hc, if_true]
          exact ih (attempt + 1) (fun i h1 h2 => h i (by omega) (by omega))

/-- If every attempt the download loop can reach fails before its body is
read, the loop returns an error. -/
lemma downloadLoop_all_fail (att : Nat → DownloadAttemptOutcome) :
    ∀ (r attempt : Nat) (lastErr : Option PixelDrainErrorM),
      (∀ i, attempt ≤ i → i < attempt + r → downloadAttemptFails (att i) = true) →
      isOkE (downloadLoop att attempt r lastErr).2 = false := by
  intro r
  induction r with
  | zero => intro attempt lastErr _; rfl
  | succ r ih =>
    intro attempt lastErr h
    have hfail := h attempt le_rfl (by omega)
    simp only [downloadLoop]
    cases ha : att attempt with
    | sendErr e =>
      by_cases hr : 0 < r
      · simp only [hr, if_true]
        exact ih (attempt + 1) (some (.Reqwest e))
          (fun i h1 h2 => h i (by omega) (by omega))
      · simp [hr, isOkE]
    | resp resp =>
      rw [ha] at hfail
      simp only [downloadAttemptFails, Bool.not_eq_true'] at hfail
      simp only [hfail, Bool.not_false, if_true]
      cases hc : is_server_error resp.status && decide (0 < r) with
      | false => simp [hc, isOkE]
      | true =>
        simp only [hc, if_true]
        exact ih (attempt + 1) (some (.Api ⟨resp.status, "error", resp.errText⟩))
          (fun i h1 h2 => h i (by omega) (by omega))

/-- C3: upload_file makes at most 3 attempts and download_file at most 5;
every attempt block begins with a progress-0.0 report (including the
first) and every sleep in either trace lasts exactly 3 seconds; and when
every reachable attempt fails, the operation returns an error instead of
retrying further or dropping the result. -/
theorem c3_retry_budget (uenv : UploadEnv) (datt : Nat → DownloadAttemptOutcome) :
    (upload_file uenv).1.length ≤ MAX_RETRIES_UPLOAD ∧
    (download_file datt).1.length ≤ MAX_RETRIES_DOWNLOAD ∧
    ((upload_file uenv).1.all blockHead0) = true ∧
    ((download_file datt).1.all blockHead0) = true ∧
    ((upload_file uenv).1.all fun b => b.all sleepOk) = true ∧
    ((download_file datt).1.all fun b => b.all sleepOk) = true ∧
    ((isOkE (uenv.attempts 1).result || isOkE (uenv.attempts 2).result ||
        isOkE (uenv.attempts 3).result) = false →
      isOkE (upload_file uenv).2 = false) ∧
    ((downloadAttemptFails (datt 1) && downloadAttemptFails (datt 2) &&
        downloadAttemptFails (datt 3) && downloadAttemptFails (datt 4) &&
        downloadAttemptFails (datt 5)) = true →
      isOkE (download_file datt).2 = false) := by
  have htrace : (upload_file uenv).1 = [] ∨
      (upload_file uenv).1 = (uploadLoop uenv.fileSize uenv.attempts 1 MAX_RETRIES_UPLOAD).1 := by
    unfold upload_file
    cases uenv.fileExists
    · simp
    · cases uenv.hasApiKey <;> simp
  refine ⟨?_, ?_, ?_, ?_, ?_, ?_, ?_, ?_⟩
  · rcases htrace with h | h <;> rw [h]
    · simp
    · exact uploadLoop_length _ _ _ _
  · exact downloadLoop_length _ _ _ _
  · rcases htrace with h | h <;> rw [h]
    · rfl
    · rw [List.all_eq_true]
      exact fun b hb => (uploadLoop_blocks _ _ _ _ b hb).1
  · rw [List.all_eq_true]
    exact fun b hb => (downloadLoop_blocks _ _ _ _ b hb).1
  · rcases htrace with h | h <;> rw [h]
    · rfl
    · rw [List.all_eq_true]
      exact fun b hb => (uploadLoop_blocks _ _ _ _ b hb).2
  · rw [List.all_eq_true]
    exact fun b hb => (downloadLoop_blocks _ _ _ _ b hb).2
  · intro hOr
    simp only [Bool.or_eq_false_iff] at hOr
    unfold upload_file
    cases uenv.fileExists
    · rfl
    · cases uenv.hasApiKey
      · rfl
      · simp only [Bool.not_true, Bool.false_eq_true, if_false]
        refine uploadLoop_all_fail _ _ MAX_RETRIES_UPLOAD 1 ?_
        intro i h1 h2
        simp only [MAX_RETRIES_UPLOAD] at h2
        interval_cases i
        · exact hOr.1.1
        · exact hOr.1.2
        · exact hOr.2
  · intro hAnd
    simp only [Bool.and_eq_true] at hAnd
    refine downloadLoop_all_fail _ MAX_RETRIES_DOWNLOAD 1 none ?_
    intro i h1 h2
    simp only [MAX_RETRIES_DOWNLOAD] at h2
    interval_cases i
    · exact hAnd.1.1.1.1
    · exact hAnd.1.1.1.2
    · exact hAnd.1.1.2
    · exact hAnd.1.2
    · exact hAnd.2

/-- C3 witness: an upload whose three attempts all fail with a 503 and a
download whose five attempts all fail with a 503. -/
theorem c3_retry_budget_witness :
    (upload_file ⟨true, true, 4, fun _ => ⟨none, [2], .error (.Api ⟨503, "error", "s"⟩)⟩⟩).1.length ≤
      MAX_RETRIES_UPLOAD ∧
    (download_file fun _ => .resp ⟨503, "s", none, none, []⟩).1.length ≤ MAX_RETRIES_DOWNLOAD ∧
    (((upload_file ⟨true, true, 4, fun _ => ⟨none, [2], .error (.Api ⟨503, "error", "s"⟩)⟩⟩).1.all
        blockHead0)) = true ∧
    (((download_file fun _ => .resp ⟨503, "s", none, none, []⟩).1.all blockHead0)) = true ∧
    (((upload_file ⟨true, true, 4, fun _ => ⟨none, [2], .error (.Api ⟨503, "error", "s"⟩)⟩⟩).1.all
        fun b => b.all sleepOk)) = true ∧
    (((download_file fun _ => .resp ⟨503, "s", none, none, []⟩).1.all fun b => b.all sleepOk)) = true ∧
    ((isOkE ((fun _ => (⟨none, [2], .error (.Api ⟨503, "error", "s"⟩)⟩ : UploadAttempt)) 1).result ||
        isOkE ((fun _ => (⟨none, [2], .error (.Api ⟨503, "error", "s"⟩)⟩ : UploadAttempt)) 2).result ||
        isOkE ((fun _ => (⟨none, [2], .error (.Api ⟨503, "error", "s"⟩)⟩ : UploadAttempt)) 3).result) = false →
      isOkE (upload_file ⟨true, true, 4, fun _ => ⟨none, [2], .error (.Api ⟨503, "error", "s"⟩)⟩⟩).2 = false) ∧
    ((downloadAttemptFails ((fun _ => DownloadAttemptOutcome.resp ⟨503, "s", none, none, []⟩) 1) &&
        downloadAttemptFails ((fun _ => DownloadAttemptOutcome.resp ⟨503, "s", none, none, []⟩) 2) &&
        downloadAttemptFails ((fun _ => DownloadAttemptOutcome.resp ⟨503, "s", none, none, []⟩) 3) &&
        downloadAttemptFails ((fun _ => DownloadAttemptOutcome.resp ⟨503, "s", none, none, []⟩) 4) &&
        downloadAttemptFails ((fun _ => DownloadAttemptOutcome.resp ⟨503, "s", none, none, []⟩) 5)) = true →
      isOkE (download_file fun _ => .resp ⟨503, "s", none, none, []⟩).2 = false) :=
  c3_retry_budget ⟨true, true, 4, fun _ => ⟨none, [2], .error (.Api ⟨503, "error", "s"⟩)⟩⟩
    (fun _ => .resp ⟨503, "s", none, none, []⟩)

/-! ### C6: which operations are wrapped in retry -/

/-- Mapped progress reports contain no sleeps (notSleep form). -/
lemma all_notSleep_map_progress (l : List ℚ) :
    ((l.map Event.progress).all Event.notSleep) = true := by
  rw [List.all_eq_true]
  intro e he
  rcases List.mem_map.mp he with ⟨v, _, rfl⟩
  rfl

/-- C6 counterexample: the coordinator dispatches the streamed (archive)
upload with no retry wrapper.  A directory upload whose single PUT fails
with a 503 — retryable class, and every later send attempt would succeed
— ends with that error after the one attempt, with no sleep and no
second attempt, refuting the claim that the streamed upload is attempted
up to 3 times with the fixed delay. -/
theorem c6_counterexample :
    start_directory_upload
        ⟨none, ⟨true, [100],
          fun i => if i = 1 then .resp 503 "overloaded" none
            else .resp 201 "" (some ⟨"F1"⟩)⟩⟩ =
      ((progressReaderEvents none [100] 0).map Event.progress,
        .error (.Api ⟨503, "error", "overloaded"⟩)) ∧
    should_retry (.Api ⟨503, "error", "overloaded"⟩) = true ∧
    ((start_directory_upload
        ⟨none, ⟨true, [100],
          fun i => if i = 1 then .resp 503 "overloaded" none
            else .resp 201 "" (some ⟨"F1"⟩)⟩⟩).1.all Event.notSleep) = true := by
  refine ⟨rfl, rfl, ?_⟩
  exact all_notSleep_map_progress _

/-- The coordinator list-operation loop emits at most budget-minus-one
inter-attempt sleeps. -/
lemma listOpLoop_length {α : Type} (op : Nat → Except PixelDrainErrorM α) :
    ∀ (r attempt : Nat), (listOpLoop op attempt r).1.length ≤ r - 1 := by
  intro r
  induction r with
  | zero => intro attempt; simp [listOpLoop]
  | succ r ih =>
    intro attempt
    simp only [listOpLoop]
    cases h : op attempt with
    | ok a => simp
    | error e =>
      cases hc : should_retry e && decide (0 < r) with
      | false => simp [hc]
      | true =>
        have hr : 0 < r := by
          simp only [Bool.and_eq_true, decide_eq_true_eq] at hc
          exact hc.2
        simp only [hc, if_true, List.length_cons]
        have := ih (attempt + 1)
        omega

/-- Every event the coordinator list-operation loop emits is a 3-second
sleep. -/
lemma listOpLoop_sleepOk {α : Type} (op : Nat → Except PixelDrainErrorM α) :
    ∀ (r attempt : Nat), ((listOpLoop op attempt r).1.all sleepOk) = true := by
  intro r
  induction r with
  | zero => intro attempt; rfl
  | succ r ih =>
    intro attempt
    simp only [listOpLoop]
    cases h : op attempt with
    | ok a => rfl
    | error e =>
      cases hc : should_retry e && decide (0 < r) with
      | false => simp [hc]
      | true =>
        simp only [hc, if_true, List.all_cons, Bool.and_eq_true]
        exact ⟨rfl, ih (attempt + 1)⟩

/-- A retryable failure on the first attempt of a coordinator list
operation is retried after one 3-second sleep, and a successful second
attempt makes the whole operation succeed. -/
lemma listOpLoop_retry_success {α : Type} (op : Nat → Except PixelDrainErrorM α)
    (e : PixelDrainErrorM) (a : α)
    (h1 : op 1 = .error e) (hr : should_retry e = true) (h2 : op 2 = .ok a) :
    listOpLoop op 1 3 = ([Event.sleep RETRY_DELAY_SECS], .ok a) := by
  show listOpLoop op 1 (2 + 1) = _
  simp only [listOpLoop]
  rw [h1, h2]
  simp [hr]

/-- C6 amended: the Transfer Coordinator wraps its list create/update
operations in the 3-attempt retry loop with the fixed 3-second delay — a
retryable first-attempt failure is retried and a successful second
attempt makes the operation succeed; at most two inter-attempt sleeps,
every one of 3 seconds — and upload_file, upload_file_put and
download_file carry their own loops; but the streamed (archive) upload is
dispatched with NO retry: its single failing PUT is returned immediately,
with no sleep. -/
theorem c6_amended (catt : Nat → CreateListEnv) (uatt : Nat → UpdateListEnv)
    (catt2 : Nat → CreateListEnv) (uatt2 : Nat → UpdateListEnv)
    (denv : DirectoryUploadEnv)
    (ec : PixelDrainErrorM) (lc : ListInfoM)
    (hc1 : create_list (catt 1) = .error ec) (hcr : should_retry ec = true)
    (hc2 : create_list (catt 2) = .ok lc)
    (eu : PixelDrainErrorM) (lu : ListInfoM)
    (hu1 : update_list (uatt 1) = .error eu) (hur : should_retry eu = true)
    (hu2 : update_list (uatt 2) = .ok lu)
    (st : Nat) (tx : String) (p : Option UploadResponseM)
    (hd0 : denv.tarSpawnErr = none) (hdk : denv.stream.hasApiKey = true)
    (hd1 : denv.stream.sendResult 1 = .resp st tx p)
    (hds : is_success_status st = false) :
    coordinator_create_list catt = ([Event.sleep RETRY_DELAY_SECS], .ok lc) ∧
    coordinator_update_list uatt = ([Event.sleep RETRY_DELAY_SECS], .ok lu) ∧
    (coordinator_create_list catt2).1.length ≤ MAX_RETRIES_LIST - 1 ∧
    ((coordinator_create_list catt2).1.all sleepOk) = true ∧
    (coordinator_update_list uatt2).1.length ≤ MAX_RETRIES_LIST - 1 ∧
    ((coordinator_update_list uatt2).1.all sleepOk) = true ∧
    start_directory_upload denv =
      ((progressReaderEvents none denv.stream.reads 0).map Event.progress,
        .error (.Api ⟨st, "error", tx⟩)) ∧
    ((start_directory_upload denv).1.all Event.notSleep) = true := by
  have hdir : start_directory_upload denv =
      ((progressReaderEvents none denv.stream.reads 0).map Event.progress,
        .error (.Api ⟨st, "error", tx⟩)) := by
    unfold start_directory_upload
    rw [hd0]
    unfold upload_stream_put
    rw [hdk, hd1]
    simp [hds]
  refine ⟨listOpLoop_retry_success _ ec lc hc1 hcr hc2,
    listOpLoop_retry_success _ eu lu hu1 hur hu2,
    listOpLoop_length _ MAX_RETRIES_LIST 1,
    listOpLoop_sleepOk _ MAX_RETRIES_LIST 1,
    listOpLoop_length _ MAX_RETRIES_LIST 1,
    listOpLoop_sleepOk _ MAX_RETRIES_LIST 1,
    hdir, ?_⟩
  rw [hdir]
  exact all_notSleep_map_progress _

/-- C6 amended witness: list create/update whose first attempts fail with
server errors and whose second attempts succeed, and a directory upload
whose single PUT fails with a 502. -/
theorem c6_amended_witness :
    coordinator_create_list
        (fun i => if i = 1 then ⟨.resp 503 "s" none, .ok ⟨"L", "t", 0, true⟩⟩
          else ⟨.resp 201 "" (some ⟨"L1"⟩), .ok ⟨"L1", "t", 2, true⟩⟩) =
      ([Event.sleep RETRY_DELAY_SECS], .ok ⟨"L1", "t", 2, true⟩) ∧
    coordinator_update_list
        (fun i => if i = 1 then ⟨.resp 500 "u" none⟩
          else ⟨.resp 200 "" (some ⟨"L1", "t", 2, true⟩)⟩) =
      ([Event.sleep RETRY_DELAY_SECS], .ok ⟨"L1", "t", 2, true⟩) ∧
    (coordinator_create_list
        (fun i => if i = 1 then ⟨.resp 503 "s" none, .ok ⟨"L", "t", 0, true⟩⟩
          else ⟨.resp 201 "" (some ⟨"L1"⟩), .ok ⟨"L1", "t", 2, true⟩⟩)).1.length ≤
      MAX_RETRIES_LIST - 1 ∧
    ((coordinator_create_list
        (fun i => if i = 1 then ⟨.resp 503 "s" none, .ok ⟨"L", "t", 0, true⟩⟩
          else ⟨.resp 201 "" (some ⟨"L1"⟩), .ok ⟨"L1", "t", 2, true⟩⟩)).1.all sleepOk) = true ∧
    (coordinator_update_list
        (fun i => if i = 1 then ⟨.resp 500 "u" none⟩
          else ⟨.resp 200 "" (some ⟨"L1", "t", 2, true⟩)⟩)).1.length ≤
      MAX_RETRIES_LIST - 1 ∧
    ((coordinator_update_list
        (fun i => if i = 1 then ⟨.resp 500 "u" none⟩
          else ⟨.resp 200 "" (some ⟨"L1", "t", 2, true⟩)⟩)).1.all sleepOk) = true ∧
    start_directory_upload ⟨none, ⟨true, [7], fun _ => .resp 502 "w" none⟩⟩ =
      ((progressReaderEvents none [7] 0).map Event.progress,
        .error (.Api ⟨502, "error", "w"⟩)) ∧
    ((start_directory_upload ⟨none, ⟨true, [7], fun _ => .resp 502 "w" none⟩⟩).1.all
      Event.notSleep) = true :=
  c6_amended
    (fun i => if i = 1 then ⟨.resp 503 "s" none, .ok ⟨"L", "t", 0, true⟩⟩
      else ⟨.resp 201 "" (some ⟨"L1"⟩), .ok ⟨"L1", "t", 2, true⟩⟩)
    (fun i => if i = 1 then ⟨.resp 500 "u" none⟩
      else ⟨.resp 200 "" (some ⟨"L1", "t", 2, true⟩)⟩)
    (fun i => if i = 1 then ⟨.resp 503 "s" none, .ok ⟨"L", "t", 0, true⟩⟩
      else ⟨.resp 201 "" (some ⟨"L1"⟩), .ok ⟨"L1", "t", 2, true⟩⟩)
    (fun i => if i = 1 then ⟨.resp 500 "u" none⟩
      else ⟨.resp 200 "" (some ⟨"L1", "t", 2, true⟩)⟩)
    ⟨none, ⟨true, [7], fun _ => .resp 502 "w" none⟩⟩
    (.Api ⟨503, "error", "s"⟩) ⟨"L1", "t", 2, true⟩ rfl (by decide) rfl
    (.Api ⟨500, "error", "u"⟩) ⟨"L1", "t", 2, true⟩ rfl (by decide) rfl
    502 "w" none rfl rfl rfl (by decide)

/-! ### C8: downloads without Content-Length -/

/-- C8 counterexample: a download without a Content-Length header that
delivers 1048576 bytes reports 0.0 for the chunk — not the unknown-length
heuristic estimate, which at that cumulative count equals 0.95. -/
theorem c8_counterexample :
    download_file (fun _ => .resp ⟨200, "", none, none, [.chunk 1048576, .chunk 0]⟩) =
      ([[Event.progress 0, Event.progress 0, Event.progress 1]], .ok ()) ∧
    min ((1048576 : ℚ) / 1048576) (19 / 20) ≠ 0 := by
  constructor
  · rfl
  · norm_num

/-- With a zero denominator (absent Content-Length) the read loop reports
only zeros (and 3-second sleeps on its retryable-error branch). -/
lemma readLoop_zero_cl (canRetry : Bool) :
    ∀ (body : List ReadResult) (d : Nat),
      ((readLoop 0 canRetry body d).1.all progressZeroOrOne) = true := by
  intro body
  induction body with
  | nil => intro d; rfl
  | cons x rest ih =>
    intro d
    cases x with
    | chunk n =>
      cases n with
      | zero => rfl
      | succ n =>
        simp only [readLoop, List.all_cons, Bool.and_eq_true]
        refine ⟨by norm_num [progressZeroOrOne], ih (d + (n + 1))⟩
    | readErr => cases canRetry <;> rfl
    | writeErr => rfl

/-- Every block of a download whose reachable attempts carry no
Content-Length reports only 0.0 and the final 1.0 (sleeps stay 3 s). -/
lemma downloadLoop_noCL (att : Nat → DownloadAttemptOutcome) :
    ∀ (r attempt : Nat) (lastErr : Option PixelDrainErrorM),
      (∀ i, attempt ≤ i → i < attempt + r → noContentLength (att i) = true) →
      (((downloadLoop att attempt r lastErr).1.all fun b => b.all progressZeroOrOne)) = true := by
  intro r
  induction r with
  | zero => intro attempt lastErr _; rfl
  | succ r ih =>
    intro attempt lastErr h
    have hthis := h attempt le_rfl (by omega)
    simp only [downloadLoop]
    cases ha : att attempt with
    | sendErr e =>
      by_cases hr : 0 < r
      · simp only [hr, if_true, List.all_cons, Bool.and_eq_true]
        exact ⟨⟨rfl, rfl, rfl⟩, ih (attempt + 1) (some (.Reqwest e))
          (fun i h1 h2 => h i (by omega) (by omega))⟩
      · simp [hr, progressZeroOrOne]
    | resp resp =>
      rw [ha] at hthis
      simp only [noContentLength, Option.isNone_iff_eq_none] at hthis
      by_cases hsc : is_success_status resp.status
      · simp only [hsc, Bool.not_true, Bool.false_eq_true, if_false]
        cases hce : resp.createErr with
        | some m => simp [progressZeroOrOne]
        | none =>
          have hrl := readLoop_zero_cl (decide (0 < r)) resp.body 0
          rw [hthis]
          cases hex : (readLoop ((none : Option Nat).getD 0) (decide (0 < r)) resp.body 0).2.2 with
          | eof =>
            rw [List.all_eq_true]
            intro b hb
            simp only [List.mem_singleton] at hb
            subst hb
            rw [List.all_eq_true]
            intro e he
            rcases List.mem_append.mp he with he | he
            · rcases List.mem_cons.mp he with he | he
              · subst he; rfl
              · exact List.all_eq_true.mp hrl e he
            · simp only [List.mem_singleton] at he
              subst he
              rfl
          | errBreak =>
            rw [List.all_eq_true]
            intro b hb
            simp only [List.mem_singleton] at hb
            subst hb
            rw [List.all_eq_true]
            intro e he
            rcases List.mem_append.mp he with he | he
            · rcases List.mem_cons.mp he with he | he
              · subst he; rfl
              · exact List.all_eq_true.mp hrl e he
            · simp only [List.mem_singleton] at he
              subst he
              rfl
          | errReturn =>
            rw [List.all_eq_true]
            intro b hb
            simp only [List.mem_singleton] at hb
            subst hb
            rw [List.all_eq_true]
            intro e he
            rcases List.mem_cons.mp he with he | he
            · subst he; rfl
            · exact List.all_eq_true.mp hrl e he
      · simp only [Bool.not_eq_true'] at hsc
        simp only [hsc, Bool.not_false, if_true]
        cases hc : is_server_error resp.status && decide (0 < r) with
        | false => simp [hc, progressZeroOrOne]
        | true =>
          simp only [hc, if_true, List.all_cons, Bool.and_eq_true]
          exact ⟨⟨rfl, rfl, rfl⟩, ih (attempt + 1) (some (.Api ⟨resp.status, "error", resp.errText⟩))
            (fun i h1 h2 => h i (by omega) (by omega))⟩

/-- C8 amended: when no reachable download attempt carries a
Content-Length header, every mid-body progress report is the constant
0.0 and the only other report is the final 1.0 on success — download_file
does not use the unknown-length heuristic of the stream decorator. -/
theorem c8_amended (datt : Nat → DownloadAttemptOutcome)
    (h : (noContentLength (datt 1) && noContentLength (datt 2) &&
          noContentLength (datt 3) && noContentLength (datt 4) &&
          noContentLength (datt 5)) = true) :
    ((download_file datt).1.all fun b => b.all progressZeroOrOne) = true := by
  simp only [Bool.and_eq_true] at h
  refine downloadLoop_noCL datt MAX_RETRIES_DOWNLOAD 1 none ?_
  intro i h1 h2
  simp only [MAX_RETRIES_DOWNLOAD] at h2
  interval_cases i
  · exact h.1.1.1.1
  · exact h.1.1.1.2
  · exact h.1.1.2
  · exact h.1.2
  · exact h.2

/-- C8 amended witness: a Content-Length-free download delivering 5 bytes
then end of stream. -/
theorem c8_amended_witness :
    ((download_file fun _ => .resp ⟨200, "", none, none, [.chunk 5, .chunk 0]⟩).1.all
      fun b => b.all progressZeroOrOne) = true :=
  c8_amended (fun _ => .resp ⟨200, "", none, none, [.chunk 5, .chunk 0]⟩) rfl

/-! ### C10: URL round trip -/

/-- C10 counterexample: the id "a b" is non-empty and contains neither a
slash nor a question mark, yet the round trip does not return it — URL
parsing percent-encodes the space, so extracting from the produced URL
yields "a%20b". -/
theorem c10_counterexample :
    ("a b" : String) ≠ "" ∧
    (("a b" : String).data.all fun ch => ch != '/' && ch != '?') = true ∧
    extract_file_id (UploadResponseM.get_file_url ⟨"a b"⟩) = .ok "a%20b" ∧
    extract_file_id (UploadResponseM.get_file_url ⟨"a b"⟩) ≠ .ok "a b" := by
  refine ⟨by decide, by decide, by decide, by decide⟩

/-- A good character is not an ASCII tab or newline. -/
lemma goodChar_not_tabnl (c : Char) (h : goodChar c = true) :
    isUrlTabOrNewline c = false := by
  simp only [isUrlTabOrNewline, Bool.or_eq_false_iff, decide_eq_false_iff_not]
  refine ⟨⟨fun hEq => ?_, fun hEq => ?_⟩, fun hEq => ?_⟩ <;>
    (subst hEq; exact absurd h (by decide))

/-- A good character is not a C0 control or space. -/
lemma goodChar_not_c0space (c : Char) (h : goodChar c = true) :
    isC0OrSpace c = false := by
  simp only [goodChar, Bool.and_eq_true, decide_eq_true_eq] at h
  simp only [isC0OrSpace, decide_eq_false_iff_not]
  omega

/-- A good character is outside the path percent-encode set and is copied
verbatim. -/
lemma goodChar_encode (c : Char) (h : goodChar c = true) :
    encodePathChar c = [c] := by
  have hset : inPathEncodeSet c = false := by
    simp only [goodChar, Bool.and_eq_true, decide_eq_true_eq] at h
    simp only [inPathEncodeSet, Bool.or_eq_false_iff, decide_eq_false_iff_not]
    omega
  simp [encodePathChar, hset]

/-- A good character is not a path separator (slash or backslash). -/
lemma goodChar_not_sep (c : Char) (h : goodChar c = true) :
    (decide (c = '/') || decide (c = '\\')) = false := by
  simp only [Bool.or_eq_false_iff, decide_eq_false_iff_not]
  refine ⟨fun hEq => ?_, fun hEq => ?_⟩ <;>
    (subst hEq; exact absurd h (by decide))

/-- A good character is not a path terminator (question mark or hash). -/
lemma goodChar_not_term (c : Char) (h : goodChar c = true) :
    (decide (c = '?') || decide (c = '#')) = false := by
  simp only [Bool.or_eq_false_iff, decide_eq_false_iff_not]
  refine ⟨fun hEq => ?_, fun hEq => ?_⟩ <;>
    (subst hEq; exact absurd h (by decide))

/-- The path state machine copies a run of good characters into the
current segment buffer verbatim. -/
lemma pathLoop_good :
    ∀ (cs : List Char), (∀ c ∈ cs, goodChar c = true) →
      ∀ (segs : List (List Char)) (bufRev : List Char),
        pathLoop cs segs bufRev = closeSeg segs (bufRev.reverse ++ cs) false := by
  intro cs
  induction cs with
  | nil => intro _ segs bufRev; simp [pathLoop]
  | cons c rest ih =>
    intro h segs bufRev
    have hc := h c (List.mem_cons_self c rest)
    have hrest := fun x hx => h x (List.mem_cons_of_mem c hx)
    simp only [pathLoop, goodChar_not_sep c hc, goodChar_not_term c hc,
      Bool.false_eq_true, if_false, goodChar_encode c hc]
    rw [show ([c].reverse ++ bufRev) = c :: bufRev from rfl]
    rw [ih hrest segs (c :: bufRev)]
    congr 1
    simp [List.reverse_cons, List.append_assoc]

/-- Trimming leaves a list alone when its first and last characters are
not C0 controls or spaces. -/
lemma trimC0Space_of_good (a : Char) (mid : List Char) (b : Char)
    (ha : isC0OrSpace a = false) (hb : isC0OrSpace b = false) :
    trimC0Space (a :: (mid ++ [b])) = a :: (mid ++ [b]) := by
  unfold trimC0Space
  rw [List.dropWhile_cons_of_neg (by simp [ha])]
  rw [show (a :: (mid ++ [b])).reverse = b :: (mid.reverse ++ [a]) from by
    simp]
  rw [List.dropWhile_cons_of_neg (by simp [hb])]
  simp

/-- Preprocessing leaves the generated URL of a good id unchanged: no
character is a tab or newline and the ends are not trimmed. -/
lemma preprocessUrl_good (L : List Char) (h : ∀ c ∈ L, goodChar c = true)
    (hne : L ≠ []) :
    preprocessUrl (urlHostPart ++ ('/' :: 'u' :: '/' :: L)) =
      urlHostPart ++ ('/' :: 'u' :: '/' :: L) := by
  obtain ⟨mid, b, rfl⟩ := (List.eq_nil_or_concat' L).resolve_left hne
  have hb : goodChar b = true := h b (by simp)
  have hP : urlHostPart = 'h' :: "ttps://pixeldrain.com".data := by decide
  have hassoc : "ttps://pixeldrain.com".data ++ ('/' :: 'u' :: '/' :: (mid ++ [b])) =
      ("ttps://pixeldrain.com".data ++ ('/' :: 'u' :: '/' :: mid)) ++ [b] := by
    simp
  rw [hP, List.cons_append, hassoc]
  unfold preprocessUrl
  rw [trimC0Space_of_good 'h' _ b (by decide) (goodChar_not_c0space b hb)]
  rw [List.filter_eq_self.mpr]
  intro a hA
  rcases List.mem_cons.mp hA with rfl | hA
  · decide
  rcases List.mem_append.mp hA with hA | hA
  case inr =>
    rw [List.mem_singleton] at hA
    subst hA
    simp [goodChar_not_tabnl _ hb]
  rcases List.mem_append.mp hA with hA | hA
  · have hpt : ∀ x ∈ "ttps://pixeldrain.com".data, (!isUrlTabOrNewline x) = true := by
      decide
    exact hpt a hA
  · rcases List.mem_cons.mp hA with rfl | hA
    · decide
    rcases List.mem_cons.mp hA with rfl | hA
    · decide
    rcases List.mem_cons.mp hA with rfl | hA
    · decide
    simp [goodChar_not_tabnl a (h a (by simp [hA]))]

/-- C10 amended: the round trip extract_file_id(get_file_url(id)) = id
holds for every non-empty id whose characters all survive URL parsing
verbatim (goodChar: visible ASCII minus separators, terminators and the
path percent-encode set) and which is not a WHATWG dot segment. -/
theorem c10_amended (id : String) (h1 : id.data ≠ [])
    (h2 : (id.data.all goodChar) = true)
    (h3 : isSingleDotSeg id.data = false) (h4 : isDoubleDotSeg id.data = false) :
    extract_file_id (UploadResponseM.get_file_url ⟨id⟩) = .ok id := by
  obtain ⟨L⟩ := id
  have hgood : ∀ c ∈ L, goodChar c = true := List.all_eq_true.mp h2
  have hdata : (UploadResponseM.get_file_url ⟨⟨L⟩⟩).data =
      urlHostPart ++ ('/' :: 'u' :: '/' :: L) := by
    show ("https://pixeldrain.com" ++ "/u/" ++ ⟨L⟩ : String).data = _
    rw [String.data_append, String.data_append]
    simp [urlHostPart]
  have hpath : pathLoop ('u' :: '/' :: L) [] [] = [['u'], L] := by
    have s0 : pathLoop ('u' :: '/' :: L) [] [] = pathLoop L [['u']] [] := rfl
    rw [s0, pathLoop_good L hgood [['u']] []]
    show closeSeg [['u']] L false = [['u'], L]
    simp [closeSeg, h3, h4]
  have hparse : urlParsePath (UploadResponseM.get_file_url ⟨⟨L⟩⟩).data =
      some ('/' :: 'u' :: '/' :: L) := by
    rw [hdata]
    unfold urlParsePath
    rw [preprocessUrl_good L hgood h1]
    simp only [List.take_left, List.drop_left, if_true]
    show some (serializePath (pathLoop ('u' :: '/' :: L) [] [])) =
      some ('/' :: 'u' :: '/' :: L)
    rw [hpath]
    simp [serializePath]
  unfold extract_file_id
  rw [hparse]
  show (if L ≠ [] then (Except.ok (String.mk L) : Except PixelDrainErrorM String)
      else .error (.InvalidUrl "Could not extract file ID from URL")) = .ok ⟨L⟩
  rw [if_pos h1]

/-- C10 amended witness: the id "abc". -/
theorem c10_amended_witness :
    extract_file_id (UploadResponseM.get_file_url ⟨"abc"⟩) = .ok "abc" :=
  c10_amended "abc" (by decide) (by decide) (by decide) (by decide)

end Pixeldrain
